import Mathlib

/-!
# buscore-lighthouse — verification of the counter/reporting worker

Shallow embedding of `src/index.ts` (a Cloudflare Worker: daily usage
counters in a `metrics_daily` table, a manifest proxy, a protected report
endpoint and a scheduled summary job) together with proofs of the
specification's claims about it.

Conventions of the embedding:
* The D1 table `metrics_daily(day TEXT PRIMARY KEY, update_checks, downloads,
  errors)` is a list of rows; SQL statements become list transformations.
* SQLite compares `TEXT` values byte-wise (BINARY collation); on UTF-8 this
  is exactly lexicographic comparison of the code points, modelled by
  `charsLE` below.
* JS `Date` values are modelled at calendar-day granularity (the code only
  ever uses the UTC day): a `Date` is a `(year, month, day)` triple and
  `toISOString().slice(0, 10)` becomes `utcDay`, producing the zero-padded
  `YYYY-MM-DD` key.
* Each fallible external call (D1 statement, manifest fetch, webhook POST)
  gets its outcome from an explicit oracle; `try/catch` in the source is
  translated to `Except` plus an explicit `match`.
-/

namespace Lighthouse

/-! ## Lexicographic string comparison (SQLite BINARY collation on day keys) -/

/-- Lexicographic `≤` on char lists; models SQLite's BINARY collation used by
`WHERE day >= ? AND day <= ?` (byte order on UTF-8 equals code-point order). -/
def charsLE : List Char → List Char → Bool
  | [], _ => true
  | _ :: _, [] => false
  | a :: as, b :: bs => if a < b then true else if b < a then false else charsLE as bs

/-- `a <= b` on strings, as SQLite compares the `day` column. -/
def strLE (a b : String) : Bool := charsLE a.data b.data

theorem charsLE_refl (a : List Char) : charsLE a a = true := by
  induction a with
  | nil => rfl
  | cons c cs ih => simp [charsLE, ih]

theorem charsLE_total (a b : List Char) : charsLE a b = true ∨ charsLE b a = true := by
  induction a generalizing b with
  | nil => left; rfl
  | cons c cs ih =>
    cases b with
    | nil => right; rfl
    | cons d ds =>
      by_cases h1 : c < d
      · left; simp [charsLE, h1]
      · by_cases h2 : d < c
        · right; simp [charsLE, h2, h1]
        · rcases ih ds with h | h <;> [left; right] <;> simp [charsLE, h1, h2, h]

theorem charsLE_antisymm {a b : List Char} (h1 : charsLE a b = true)
    (h2 : charsLE b a = true) : a = b := by
  induction a generalizing b with
  | nil => cases b with
    | nil => rfl
    | cons d ds => simp [charsLE] at h2
  | cons c cs ih =>
    cases b with
    | nil => simp [charsLE] at h1
    | cons d ds =>
      by_cases hcd : c < d
      · simp [charsLE, hcd, asymm hcd] at h2
      · by_cases hdc : d < c
        · simp [charsLE, hcd, hdc] at h1
        · have hcd' : c = d := le_antisymm (not_lt.mp hdc) (not_lt.mp hcd)
          subst hcd'
          simp only [charsLE, if_neg hcd, if_neg hdc] at h1 h2
          rw [ih h1 h2]

theorem charsLE_trans {a b c : List Char} (h1 : charsLE a b = true)
    (h2 : charsLE b c = true) : charsLE a c = true := by
  induction a generalizing b c with
  | nil => rfl
  | cons x xs ih =>
    cases b with
    | nil => simp [charsLE] at h1
    | cons y ys =>
      cases c with
      | nil => simp [charsLE] at h2
      | cons z zs =>
        by_cases hxy : x < y
        · by_cases hyz : y < z
          · simp [charsLE, lt_trans hxy hyz]
          · by_cases hzy : z < y
            · simp [charsLE, hyz, hzy] at h2
            · have : y = z := le_antisymm (not_lt.mp hzy) (not_lt.mp hyz)
              subst this; simp [charsLE, hxy]
        · by_cases hyx : y < x
          · simp [charsLE, hxy, hyx] at h1
          · have : x = y := le_antisymm (not_lt.mp hyx) (not_lt.mp hxy)
            subst this
            simp only [charsLE, if_neg hxy, if_neg hyx] at h1
            by_cases hxz : x < z
            · simp [charsLE, hxz]
            · by_cases hzx : z < x
              · simp [charsLE, hxz, hzx] at h2
              · have : x = z := le_antisymm (not_lt.mp hzx) (not_lt.mp hxz)
                subst this
                simp only [charsLE, if_neg hxz, if_neg hzx] at h2 ⊢
                exact ih h1 h2

theorem strLE_refl (a : String) : strLE a a = true := charsLE_refl a.data

theorem strLE_total (a b : String) : strLE a b = true ∨ strLE b a = true :=
  charsLE_total a.data b.data

theorem strLE_antisymm {a b : String} (h1 : strLE a b = true)
    (h2 : strLE b a = true) : a = b := by
  cases a; cases b
  exact congrArg String.mk (charsLE_antisymm h1 h2)

theorem strLE_trans {a b c : String} (h1 : strLE a b = true)
    (h2 : strLE b c = true) : strLE a c = true :=
  charsLE_trans h1 h2

/-! ## Calendar model of the JS `Date` UTC operations -/

/-- Days in a month of the proleptic Gregorian calendar, as used by the JS
`Date` UTC accessors. `m` is 1-based. -/
def daysInMonth (y m : Nat) : Nat :=
  if m = 2 then (if y % 4 = 0 ∧ (y % 100 ≠ 0 ∨ y % 400 = 0) then 29 else 28)
  else if m = 4 ∨ m = 6 ∨ m = 9 ∨ m = 11 then 30
  else 31

theorem daysInMonth_pos (y m : Nat) : 1 ≤ daysInMonth y m := by
  unfold daysInMonth; split <;> [split <;> omega; split <;> omega]

theorem daysInMonth_le (y m : Nat) : daysInMonth y m ≤ 31 := by
  unfold daysInMonth; split <;> [split <;> omega; split <;> omega]

/-- A JS `Date` at UTC-day granularity: the triple
(`getUTCFullYear`, `getUTCMonth` + 1, `getUTCDate`). -/
structure Date where
  year : Nat
  month : Nat
  day : Nat
deriving DecidableEq, Repr

/-- A calendar-valid date (month in range, day in range for that month). -/
def Date.Valid (t : Date) : Prop :=
  1 ≤ t.month ∧ t.month ≤ 12 ∧ 1 ≤ t.day ∧ t.day ≤ daysInMonth t.year t.month

instance (t : Date) : Decidable t.Valid := by unfold Date.Valid; infer_instance

/-- `Char.ofNat (48 + n)`: the ASCII digit for `n < 10`. -/
def digitChar (n : Nat) : Char := Char.ofNat (48 + n)

/-- Two-digit zero-padded decimal rendering (for `n ≤ 99`). -/
def pad2 (n : Nat) : List Char := [digitChar (n / 10 % 10), digitChar (n % 10)]

/-- Four-digit zero-padded decimal rendering (for `n ≤ 9999`): the two-digit
renderings of `n / 100` and `n % 100` give the digits
`n/1000%10, n/100%10, n/10%10, n%10`. -/
def pad4 (n : Nat) : List Char := pad2 (n / 100) ++ pad2 (n % 100)

/-- `utcDay` from the source: `date.toISOString().slice(0, 10)`, i.e. the
zero-padded `YYYY-MM-DD` key of the UTC day (years rendered with 4 digits,
the code's operating range). -/
def utcDay (t : Date) : String :=
  ⟨pad4 t.year ++ '-' :: (pad2 t.month ++ '-' :: pad2 t.day)⟩

/-- `utcMonthStart` from the source:
`new Date(Date.UTC(getUTCFullYear(), getUTCMonth(), 1)).toISOString().slice(0,10)` —
the key of the first day of the same UTC month. -/
def utcMonthStart (t : Date) : String := utcDay ⟨t.year, t.month, 1⟩

/-- JS `setUTCDate(dayArg)` normalization (ECMAScript `MakeDay`) for
`dayArg ≤ 31`: roll back through months while the day argument is below 1. -/
def normDate (y m : Nat) (dayArg : Int) : Date :=
  if 1 ≤ dayArg then ⟨y, m, dayArg.toNat⟩
  else if 2 ≤ m then normDate y (m - 1) (dayArg + daysInMonth y (m - 1))
  else normDate (y - 1) 12 (dayArg + 31)
termination_by (1 - dayArg).toNat
decreasing_by
  all_goals
    have h1 := daysInMonth_pos y (m - 1)
    omega

/-- The source's `d.setUTCDate(d.getUTCDate() - k)`: subtract `k` days with
JS month/year rollover. -/
def jsSubDays (t : Date) (k : Nat) : Date := normDate t.year t.month ((t.day : Int) - k)

/-- Modelled from the spec: the calendar day immediately before `t`
("minus 1 calendar day"). -/
def prevDay (t : Date) : Date :=
  if 2 ≤ t.day then ⟨t.year, t.month, t.day - 1⟩
  else if 2 ≤ t.month then ⟨t.year, t.month - 1, daysInMonth t.year (t.month - 1)⟩
  else ⟨t.year - 1, 12, 31⟩

/-- Modelled from the spec: `t` minus `k` calendar days, one day at a time. -/
def subCalDays (t : Date) : Nat → Date
  | 0 => t
  | k + 1 => subCalDays (prevDay t) k

/-- Modelled from the spec: the calendar day immediately after `t`
("the next day after m"). -/
def nextDay (t : Date) : Date :=
  if t.day < daysInMonth t.year t.month then ⟨t.year, t.month, t.day + 1⟩
  else if t.month < 12 then ⟨t.year, t.month + 1, 1⟩
  else ⟨t.year + 1, 1, 1⟩

/-- Calendar order on dates (lexicographic on year, month, day): the order
the zero-padded `YYYY-MM-DD` key encodes. -/
def dateLE (u v : Date) : Prop :=
  u.year < v.year
    ∨ (u.year = v.year
        ∧ (u.month < v.month ∨ (u.month = v.month ∧ u.day ≤ v.day)))

instance (u v : Date) : Decidable (dateLE u v) := by
  unfold dateLE; infer_instance

/-! ## The counter store (`metrics_daily`) -/

/-- The three counter columns. -/
inductive Col
  | update_checks
  | downloads
  | errors
deriving DecidableEq, Repr

/-- One row of `metrics_daily`. -/
structure Row where
  day : String
  update_checks : Nat
  downloads : Nat
  errors : Nat
deriving DecidableEq, Repr

/-- The table: a list of rows (`day` is the primary key; well-formed states
have pairwise-distinct days). -/
abbrev Store := List Row

def Row.get (r : Row) : Col → Nat
  | .update_checks => r.update_checks
  | .downloads => r.downloads
  | .errors => r.errors

/-- Add 1 to one column of a row (`SET col = col + 1`). -/
def Row.bump (r : Row) : Col → Row
  | .update_checks => { r with update_checks := r.update_checks + 1 }
  | .downloads => { r with downloads := r.downloads + 1 }
  | .errors => { r with errors := r.errors + 1 }

/-- `INSERT INTO metrics_daily(day, …) VALUES (?,0,0,0) ON CONFLICT(day) DO
NOTHING`: append an all-zero row unless a row with this key exists. -/
def insertIfAbsent (st : Store) (day : String) : Store :=
  if st.any (fun r => r.day == day) then st else st ++ [⟨day, 0, 0, 0⟩]

/-- `UPDATE metrics_daily SET col = col + 1 WHERE day = ?`: bump every row
whose key matches (at most one in a well-formed store). -/
def updateAddOne (st : Store) (day : String) (c : Col) : Store :=
  st.map (fun r => if r.day == day then r.bump c else r)

/-- `incrementCounter` from the source: upsert the row, then increment the
named column. -/
def incrementCounter (st : Store) (day : String) (c : Col) : Store :=
  updateAddOne (insertIfAbsent st day) day c

/-- The three sums returned by `queryTotals`. -/
structure Totals where
  update_checks : Nat
  downloads : Nat
  errors : Nat
deriving DecidableEq, Repr

def Totals.get (t : Totals) : Col → Nat
  | .update_checks => t.update_checks
  | .downloads => t.downloads
  | .errors => t.errors

/-- Componentwise sum of `Totals`. -/
def Totals.add (a b : Totals) : Totals :=
  ⟨a.update_checks + b.update_checks, a.downloads + b.downloads, a.errors + b.errors⟩

/-- `SUM` over a list of rows (with `COALESCE(…, 0)` giving zeros on the
empty list). -/
def sumRows : List Row → Totals
  | [] => ⟨0, 0, 0⟩
  | r :: rs => Totals.add ⟨r.update_checks, r.downloads, r.errors⟩ (sumRows rs)

/-- `queryTotals` from the source:
`SELECT COALESCE(SUM(update_checks),0), … FROM metrics_daily
 WHERE day >= ? AND day <= ?`. -/
def queryTotals (st : Store) (startDay endDay : String) : Totals :=
  sumRows (st.filter fun r => strLE startDay r.day && strLE r.day endDay)

/-- Number of rows carrying a given day key. -/
def countDay (st : Store) (day : String) : Nat :=
  (st.filter fun r => r.day == day).length

/-- A well-formed table: the primary key constraint holds (pairwise-distinct
day keys). -/
def WF (st : Store) : Prop := st.Pairwise (fun r s => r.day ≠ s.day)

/-- `N` successive successful `incrementCounter` calls on one day/column. -/
def iterIncr (st : Store) (d : String) (c : Col) : Nat → Store
  | 0 => st
  | n + 1 => incrementCounter (iterIncr st d c n) d c

/-- Totals over the rows carrying one day key. -/
def dayTotals (st : Store) (d : String) : Totals :=
  sumRows (st.filter fun r => r.day == d)

/-- Pointwise comparison of rows: same key, no counter smaller. -/
def rowLE (r s : Row) : Prop := r.day = s.day ∧ ∀ c, r.get c ≤ s.get c

/-- `st'` keeps every row of `st` (same position, same key) with counters no
smaller: the shape of "no operation ever decreases any counter of any row". -/
def StoreLE (st st' : Store) : Prop :=
  st.length ≤ st'.length ∧
    ∀ i, i < st.length → rowLE (st.getD i ⟨"", 0, 0, 0⟩) (st'.getD i ⟨"", 0, 0, 0⟩)

/-! ## Manifest JSON and the JS field-access chain -/

/-- A parsed JSON value (the result of `res.json()`). -/
inductive Json
  | null
  | bool (b : Bool)
  | num (n : Int)
  | str (s : String)
  | arr (xs : List Json)
  | obj (kvs : List (String × Json))

/-- First binding of a key in a JS object, `none` meaning `undefined`. -/
def lookupKey : List (String × Json) → String → Option Json
  | [], _ => none
  | (k', v) :: rest, k => if k' == k then some v else lookupKey rest k

/-- JS property access `x.k` on a value: a field of an object, `undefined`
on any non-object. -/
def getProp : Json → String → Option Json
  | .obj kvs, k => lookupKey kvs k
  | _, _ => none

/-- JS optional chaining `x?.k` where `none` is `undefined`: short-circuits
on `undefined` and `null`, otherwise accesses the property. -/
def optChain (x : Option Json) (k : String) : Option Json :=
  match x with
  | none => none
  | some .null => none
  | some j => getProp j k

/-- Whether a JS value is nullish (`undefined` or `null`), as tested by `??`. -/
def nullish : Option Json → Bool
  | none => true
  | some .null => true
  | _ => false

/-- The value at `manifest?.latest?.download?.url`. -/
def downloadUrlPath (m : Json) : Option Json :=
  optChain (optChain (optChain (some m) "latest") "download") "url"

/-- The value at `manifest?.latest?.url`. -/
def latestUrlPath (m : Json) : Option Json :=
  optChain (optChain (some m) "latest") "url"

/-- The source's `latestUrl` expression:
`manifest?.latest?.download?.url ?? manifest?.latest?.url`. -/
def latestUrlOf (m : Json) : Option Json :=
  if nullish (downloadUrlPath m) then latestUrlPath m else downloadUrlPath m

/-! ## The HTTP handler and the scheduled job -/

/-- A JS exception escaping to the Workers runtime (all storage failures are
modelled by one kind; the handler never inspects the value). -/
inductive Err
  | storage
deriving DecidableEq, Repr

/-- One observable interaction with an external service, with the outcome the
oracle assigned to it. Traces record the order in which the code issues them. -/
inductive Event
  | inc (day : String) (c : Col) (ok : Bool)
  | query (startDay endDay : String) (ok : Bool)
  | manifestFetch (ok : Bool)
  | webhook (ok : Bool)
deriving DecidableEq, Repr

def Event.isInc : Event → Bool
  | .inc _ _ _ => true
  | _ => false

def Event.isWebhook : Event → Bool
  | .webhook _ => true
  | _ => false

/-- Body of a JSON response produced by the worker. -/
inductive RespBody
  | errorBody (error : String)
  | manifestBody (m : Json)
  | reportBody (today yesterday last7 mtd : Totals)

/-- An HTTP response: `Response.json(body, {status})` or
`Response.redirect(location, status)`. -/
inductive Resp
  | json (status : Nat) (body : RespBody)
  | redirect (status : Nat) (location : String)

/-- The inbound request: method, pathname, and the `X-Admin-Token` header
(`none` when absent, as `headers.get` returns `null`). -/
structure Request where
  method : String
  path : String
  adminToken : Option String
deriving DecidableEq, Repr

/-- The worker's environment bindings that the logic reads. -/
structure EnvCfg where
  ADMIN_TOKEN : String
deriving DecidableEq, Repr

/-- Oracle fixing the outcome of each external call a single `fetch`
invocation can make: the first counter increment, the error-counter
increment, the manifest fetch (`none` = transport/status/parse failure),
and the four report queries. -/
structure Oracle where
  incOk : Bool
  errIncOk : Bool
  manifest : Option Json
  q1Ok : Bool
  q2Ok : Bool
  q3Ok : Bool
  q4Ok : Bool

/-- The store and trace after the best-effort increments of a counting
endpoint (first increment, manifest fetch, conditional `errors` increment). -/
structure PrologueOut where
  store : Store
  evs : List Event
deriving Repr

/-- Shared body of the two counting endpoints: best-effort increment of
column `c`, manifest fetch, then best-effort `errors` increment if the first
increment had thrown. Returns the store and trace at the point where the
branch inspects the manifest. -/
def countingPrologue (st : Store) (today : String) (c : Col) (o : Oracle) :
    PrologueOut :=
  if o.incOk then
    ⟨incrementCounter st today c,
     [Event.inc today c true, Event.manifestFetch o.manifest.isSome]⟩
  else
    ⟨if o.errIncOk then incrementCounter st today .errors else st,
     [Event.inc today c false, Event.manifestFetch o.manifest.isSome,
      Event.inc today .errors o.errIncOk]⟩

/-- The worker's `fetch` handler. The result is `.error e` exactly when a JS
exception escapes the handler to the runtime; otherwise `.ok` carries the
response, the final store, and the trace of external interactions. -/
def fetchHandler (env : EnvCfg) (req : Request) (now : Date) (o : Oracle)
    (st : Store) : Except Err (Resp × Store × List Event) :=
  let today := utcDay now
  if req.method == "GET" && req.path == "/update/check" then
    let pr := countingPrologue st today .update_checks o
    match o.manifest with
    | none => .ok (.json 503 (.errorBody "manifest_unavailable"), pr.store, pr.evs)
    | some m => .ok (.json 200 (.manifestBody m), pr.store, pr.evs)
  else if req.method == "GET" && req.path == "/download/latest" then
    let pr := countingPrologue st today .downloads o
    match o.manifest with
    | none => .ok (.json 503 (.errorBody "manifest_unavailable"), pr.store, pr.evs)
    | some m =>
      match latestUrlOf m with
      | some (.str s) =>
        if s == "" then
          .ok (.json 503 (.errorBody "manifest_unavailable"), pr.store, pr.evs)
        else .ok (.redirect 302 s, pr.store, pr.evs)
      | _ => .ok (.json 503 (.errorBody "manifest_unavailable"), pr.store, pr.evs)
  else if req.method == "GET" && req.path == "/report" then
    if env.ADMIN_TOKEN == "" || req.adminToken != some env.ADMIN_TOKEN then
      .ok (.json 401 (.errorBody "unauthorized"), st, [])
    else
      let yesterday := utcDay (jsSubDays now 1)
      let sevenDaysAgo := utcDay (jsSubDays now 6)
      let monthStart := utcMonthStart now
      let evs := [Event.query today today o.q1Ok,
                  Event.query yesterday yesterday o.q2Ok,
                  Event.query sevenDaysAgo today o.q3Ok,
                  Event.query monthStart today o.q4Ok]
      if o.q1Ok && o.q2Ok && o.q3Ok && o.q4Ok then
        .ok (.json 200 (.reportBody (queryTotals st today today)
              (queryTotals st yesterday yesterday)
              (queryTotals st sevenDaysAgo today)
              (queryTotals st monthStart today)), st, evs)
      else .error .storage
  else .ok (.json 404 (.errorBody "not_found"), st, [])

/-- Oracle for one scheduled invocation: the three aggregation queries, the
`errors` increment in the aggregation catch, the webhook POST (`false` covers
both a thrown fetch and a non-2xx status), and the `errors` increment in the
webhook catch. -/
structure SchedOracle where
  q1Ok : Bool
  q2Ok : Bool
  q3Ok : Bool
  aggErrIncOk : Bool
  webhookOk : Bool
  hookErrIncOk : Bool
deriving DecidableEq, Repr

/-- The worker's `scheduled` handler. `.error` would mean an exception
escaped to the runtime; every branch of the source returns normally. -/
def scheduledJob (now : Date) (o : SchedOracle) (st : Store) :
    Except Err (Store × List Event) :=
  let today := utcDay now
  let yesterday := utcDay (jsSubDays now 1)
  let sevenDaysAgo := utcDay (jsSubDays now 6)
  let monthStart := utcMonthStart now
  let qevs := [Event.query yesterday yesterday o.q1Ok,
               Event.query sevenDaysAgo today o.q2Ok,
               Event.query monthStart today o.q3Ok]
  if o.q1Ok && o.q2Ok && o.q3Ok then
    if o.webhookOk then .ok (st, qevs ++ [Event.webhook true])
    else
      let st1 := if o.hookErrIncOk then incrementCounter st today .errors else st
      .ok (st1, qevs ++ [Event.webhook false, Event.inc today .errors o.hookErrIncOk])
  else
    let st1 := if o.aggErrIncOk then incrementCounter st today .errors else st
    .ok (st1, qevs ++ [Event.inc today .errors o.aggErrIncOk])

/-! ## Lemmas about the counter store -/

theorem Row.day_bump (r : Row) (c : Col) : (r.bump c).day = r.day := by
  cases c <;> rfl

theorem filter_updateAddOne (st : Store) (d e : String) (c : Col) :
    (updateAddOne st d c).filter (fun r => r.day == e)
      = (st.filter fun r => r.day == e).map
          (fun r => if r.day == d then r.bump c else r) := by
  unfold updateAddOne
  rw [List.filter_map]
  congr 1
  apply List.filter_congr
  intro r _
  by_cases h : r.day == d <;> simp [Function.comp, h, Row.day_bump]

theorem countDay_updateAddOne (st : Store) (d e : String) (c : Col) :
    countDay (updateAddOne st d c) e = countDay st e := by
  unfold countDay
  rw [filter_updateAddOne, List.length_map]

theorem insertIfAbsent_of_present (st : Store) (d : String) (h : 1 ≤ countDay st d) :
    insertIfAbsent st d = st := by
  unfold insertIfAbsent
  rw [if_pos]
  rw [List.any_eq_true]
  unfold countDay at h
  have hne : st.filter (fun r => r.day == d) ≠ [] := by
    intro hnil; rw [hnil] at h; simp at h
  obtain ⟨r, hr⟩ := List.exists_mem_of_ne_nil _ hne
  exact ⟨r, (List.mem_filter.mp hr).1, (List.mem_filter.mp hr).2⟩

theorem insertIfAbsent_of_absent (st : Store) (d : String) (h : countDay st d = 0) :
    insertIfAbsent st d = st ++ [⟨d, 0, 0, 0⟩] := by
  unfold insertIfAbsent
  rw [if_neg]
  intro hc
  rw [List.any_eq_true] at hc
  obtain ⟨r, hmem, hrd⟩ := hc
  unfold countDay at h
  rw [List.length_eq_zero, List.filter_eq_nil_iff] at h
  exact h r hmem hrd

theorem countDay_insertIfAbsent (st : Store) (d : String) :
    countDay (insertIfAbsent st d) d
      = if countDay st d = 0 then 1 else countDay st d := by
  by_cases h : countDay st d = 0
  · rw [insertIfAbsent_of_absent st d h, if_pos h]
    unfold countDay at *
    rw [List.filter_append, List.length_append, List.length_eq_zero.mp h]
    simp
  · rw [insertIfAbsent_of_present st d (by omega), if_neg h]

theorem filter_insertIfAbsent_ne (st : Store) (d e : String) (h : ¬ e = d) :
    (insertIfAbsent st d).filter (fun r => r.day == e)
      = st.filter (fun r => r.day == e) := by
  by_cases h0 : countDay st d = 0
  · rw [insertIfAbsent_of_absent st d h0, List.filter_append]
    have hde : (d == e) = false := beq_eq_false_iff_ne.mpr (fun hde => h hde.symm)
    have hnil : List.filter (fun r => r.day == e) [(⟨d, 0, 0, 0⟩ : Row)] = [] := by
      simp [List.filter_cons, hde]
    rw [hnil, List.append_nil]
  · rw [insertIfAbsent_of_present st d (by omega)]

theorem filter_day_incrementCounter_ne (st : Store) (d : String) (c : Col)
    (e : String) (h : ¬ e = d) :
    (incrementCounter st d c).filter (fun r => r.day == e)
      = st.filter (fun r => r.day == e) := by
  unfold incrementCounter
  rw [filter_updateAddOne, filter_insertIfAbsent_ne st d e h]
  have hid : ∀ r ∈ st.filter (fun r => r.day == e),
      (if r.day == d then r.bump c else r) = r := by
    intro r hr
    have hre : r.day = e := by
      simpa [beq_iff_eq] using (List.mem_filter.mp hr).2
    have hfd : (r.day == d) = false := by
      rw [hre]; exact beq_eq_false_iff_ne.mpr h
    simp [hfd]
  rw [List.map_congr_left hid, List.map_id']

theorem filter_day_incrementCounter_self (st : Store) (d : String) (c : Col) :
    (incrementCounter st d c).filter (fun r => r.day == d)
      = ((insertIfAbsent st d).filter (fun r => r.day == d)).map (Row.bump · c) := by
  unfold incrementCounter
  rw [filter_updateAddOne]
  apply List.map_congr_left
  intro r hr
  rw [if_pos (List.mem_filter.mp hr).2]

theorem countDay_incrementCounter_self (st : Store) (d : String) (c : Col) :
    countDay (incrementCounter st d c) d
      = if countDay st d = 0 then 1 else countDay st d := by
  unfold incrementCounter
  rw [countDay_updateAddOne, countDay_insertIfAbsent]

theorem sumRows_append (l1 l2 : List Row) :
    sumRows (l1 ++ l2) = Totals.add (sumRows l1) (sumRows l2) := by
  induction l1 with
  | nil => simp [sumRows, Totals.add]
  | cons r rs ih => simp [sumRows, ih, Totals.add, Nat.add_assoc]

theorem Totals.get_add (a b : Totals) (c : Col) :
    (Totals.add a b).get c = a.get c + b.get c := by
  cases c <;> rfl

theorem sumRows_map_bump (l : List Row) (c c' : Col) :
    (sumRows (l.map (Row.bump · c))).get c'
      = (sumRows l).get c' + (if c' = c then l.length else 0) := by
  induction l with
  | nil => cases c' <;> simp [sumRows, Totals.get]
  | cons r rs ih =>
    simp only [List.map_cons, sumRows, Totals.get_add]
    rw [ih]
    have hr : (Totals.mk (r.bump c).update_checks (r.bump c).downloads
          (r.bump c).errors).get c'
        = (Totals.mk r.update_checks r.downloads r.errors).get c'
          + (if c' = c then 1 else 0) := by
      cases c <;> cases c' <;> simp [Row.bump, Totals.get]
    rw [hr]
    by_cases hcc : c' = c
    · simp [hcc]
      omega
    · simp [hcc]

theorem sumRows_filter_insertIfAbsent_get (st : Store) (d : String) (c' : Col) :
    (sumRows ((insertIfAbsent st d).filter fun r => r.day == d)).get c'
      = (dayTotals st d).get c' := by
  unfold dayTotals
  by_cases h0 : countDay st d = 0
  · rw [insertIfAbsent_of_absent st d h0, List.filter_append, sumRows_append]
    have hone : List.filter (fun r => r.day == d) [(⟨d, 0, 0, 0⟩ : Row)]
        = [⟨d, 0, 0, 0⟩] := by simp
    rw [hone]
    cases c' <;> simp [sumRows, Totals.add, Totals.get]
  · rw [insertIfAbsent_of_present st d (by omega)]

theorem dayTotals_incrementCounter_get (st : Store) (d : String) (c c' : Col)
    (h : countDay st d ≤ 1) :
    (dayTotals (incrementCounter st d c) d).get c'
      = (dayTotals st d).get c' + (if c' = c then 1 else 0) := by
  unfold dayTotals
  rw [filter_day_incrementCounter_self, sumRows_map_bump]
  have hlen : ((insertIfAbsent st d).filter fun r => r.day == d).length = 1 := by
    have := countDay_insertIfAbsent st d
    unfold countDay at *
    split at this <;> omega
  rw [hlen]
  have := sumRows_filter_insertIfAbsent_get st d c'
  unfold dayTotals at this
  rw [this]

theorem dayTotals_incrementCounter_ne (st : Store) (d : String) (c c' : Col)
    (h : ¬ c' = c) :
    (dayTotals (incrementCounter st d c) d).get c' = (dayTotals st d).get c' := by
  unfold dayTotals
  rw [filter_day_incrementCounter_self, sumRows_map_bump, if_neg h]
  have := sumRows_filter_insertIfAbsent_get st d c'
  unfold dayTotals at this
  rw [this]
  omega

theorem queryTotals_self (st : Store) (d : String) :
    queryTotals st d d = dayTotals st d := by
  unfold queryTotals dayTotals
  congr 1
  apply List.filter_congr
  intro r _
  by_cases h : r.day = d
  · simp [h, strLE_refl]
  · cases hab : strLE d r.day
    · simp [hab, h, Ne.symm]
    · cases hba : strLE r.day d
      · simp [hab, hba, h, Ne.symm]
      · exact absurd (strLE_antisymm hba hab) h

theorem queryTotals_of_no_match (st : Store) (a b : String)
    (h : ∀ r ∈ st, ¬(strLE a r.day = true ∧ strLE r.day b = true)) :
    queryTotals st a b = ⟨0, 0, 0⟩ := by
  unfold queryTotals
  rw [List.filter_eq_nil_iff.mpr ?_]
  · rfl
  · intro r hr hcontra
    rw [Bool.and_eq_true] at hcontra
    exact h r hr hcontra

theorem iterIncr_spec (st : Store) (d : String) (c : Col) (N : Nat)
    (h : countDay st d = 0) :
    countDay (iterIncr st d c N) d ≤ 1
      ∧ (dayTotals (iterIncr st d c N) d).get c = N := by
  induction N with
  | zero =>
    constructor
    · show countDay st d ≤ 1
      omega
    · show (dayTotals st d).get c = 0
      unfold dayTotals countDay at *
      rw [List.length_eq_zero.mp h]
      cases c <;> rfl
  | succ n ih =>
    obtain ⟨h1, h2⟩ := ih
    constructor
    · show countDay (incrementCounter (iterIncr st d c n) d c) d ≤ 1
      rw [countDay_incrementCounter_self]
      split <;> omega
    · show (dayTotals (incrementCounter (iterIncr st d c n) d c) d).get c = n + 1
      rw [dayTotals_incrementCounter_get _ _ _ _ h1, h2, if_pos rfl]

theorem rowLE_refl (r : Row) : rowLE r r := ⟨rfl, fun _ => le_refl _⟩

theorem rowLE_trans {a b c : Row} (h1 : rowLE a b) (h2 : rowLE b c) : rowLE a c :=
  ⟨h1.1.trans h2.1, fun col => (h1.2 col).trans (h2.2 col)⟩

theorem rowLE_bump (r : Row) (c : Col) : rowLE r (r.bump c) := by
  refine ⟨(Row.day_bump r c).symm, fun c' => ?_⟩
  cases c <;> cases c' <;> simp [Row.bump, Row.get]

theorem StoreLE_refl (st : Store) : StoreLE st st :=
  ⟨le_refl _, fun _ _ => rowLE_refl _⟩

theorem StoreLE_trans {a b c : Store} (h1 : StoreLE a b) (h2 : StoreLE b c) :
    StoreLE a c :=
  ⟨h1.1.trans h2.1,
   fun i hi => rowLE_trans (h1.2 i hi) (h2.2 i (lt_of_lt_of_le hi h1.1))⟩

theorem StoreLE_incrementCounter (st : Store) (d : String) (c : Col) :
    StoreLE st (incrementCounter st d c) := by
  unfold incrementCounter updateAddOne insertIfAbsent
  by_cases h : st.any (fun r => r.day == d)
  · rw [if_pos h]
    refine ⟨by rw [List.length_map], fun i hi => ?_⟩
    rw [List.getD_eq_getElem?_getD, List.getD_eq_getElem?_getD, List.getElem?_map,
        List.getElem?_eq_getElem hi]
    simp only [Option.map_some', Option.getD_some]
    split
    · exact rowLE_bump _ c
    · exact rowLE_refl _
  · rw [if_neg h]
    refine ⟨by rw [List.length_map, List.length_append]; omega, fun i hi => ?_⟩
    rw [List.getD_eq_getElem?_getD, List.getD_eq_getElem?_getD, List.getElem?_map,
        List.getElem?_append, if_pos hi, List.getElem?_eq_getElem hi]
    simp only [Option.map_some', Option.getD_some]
    split
    · exact rowLE_bump _ c
    · exact rowLE_refl _

theorem storeLE_countingPrologue (st : Store) (today : String) (c : Col)
    (o : Oracle) : StoreLE st (countingPrologue st today c o).store := by
  unfold countingPrologue
  split
  · exact StoreLE_incrementCounter st today c
  · dsimp only
    split
    · exact StoreLE_incrementCounter st today .errors
    · exact StoreLE_refl st

theorem storeLE_fetchHandler (env : EnvCfg) (req : Request) (now : Date)
    (o : Oracle) (st : Store) (r : Resp) (st' : Store) (evs : List Event)
    (h : fetchHandler env req now o st = .ok (r, st', evs)) : StoreLE st st' := by
  unfold fetchHandler at h
  repeat' split at h
  all_goals simp only [Except.ok.injEq, Prod.mk.injEq, reduceCtorEq] at h
  all_goals
    obtain ⟨-, hst, -⟩ := h
    rw [← hst]
    first
      | exact storeLE_countingPrologue ..
      | exact StoreLE_refl st

theorem storeLE_scheduledJob (now : Date) (o : SchedOracle) (st st' : Store)
    (evs : List Event) (h : scheduledJob now o st = .ok (st', evs)) :
    StoreLE st st' := by
  unfold scheduledJob at h
  split at h
  · split at h
    · simp only [Except.ok.injEq, Prod.mk.injEq] at h
      obtain ⟨hst, -⟩ := h
      rw [← hst]
      exact StoreLE_refl st
    · simp only [Except.ok.injEq, Prod.mk.injEq] at h
      obtain ⟨hst, -⟩ := h
      rw [← hst]
      split
      · exact StoreLE_incrementCounter ..
      · exact StoreLE_refl st
  · simp only [Except.ok.injEq, Prod.mk.injEq] at h
    obtain ⟨hst, -⟩ := h
    rw [← hst]
    split
    · exact StoreLE_incrementCounter ..
    · exact StoreLE_refl st

/-! ## Claim C1 -/

/-- C1: starting from a store with no row for day `d`, after `N` successful
`increment(d, c)` operations `sumRange(d, d)` returns `N` for counter `c`
(for each of the three counters); moreover no operation of the system — an
individual increment, a full `fetch` handler run, or a scheduled run — ever
decreases any counter of any row. -/
theorem claim_C1_monotonic_accumulation :
    (∀ (st : Store) (d : String) (c : Col) (N : Nat), countDay st d = 0 →
        (queryTotals (iterIncr st d c N) d d).get c = N)
    ∧ (∀ (st : Store) (d : String) (c : Col),
        StoreLE st (incrementCounter st d c))
    ∧ (∀ (env : EnvCfg) (req : Request) (now : Date) (o : Oracle) (st : Store)
          (r : Resp) (st' : Store) (evs : List Event),
        fetchHandler env req now o st = .ok (r, st', evs) → StoreLE st st')
    ∧ (∀ (now : Date) (o : SchedOracle) (st st' : Store) (evs : List Event),
        scheduledJob now o st = .ok (st', evs) → StoreLE st st') := by
  refine ⟨fun st d c N h => ?_, StoreLE_incrementCounter,
    storeLE_fetchHandler, storeLE_scheduledJob⟩
  rw [queryTotals_self]
  exact (iterIncr_spec st d c N h).2

/-- Witness for C1 at concrete inputs: three increments of `downloads` on day
`2025-03-15` starting from the empty store sum to 3, and a concrete increment
and 404-handler run leave the prior store's row intact. -/
theorem claim_C1_monotonic_accumulation_witness :
    (queryTotals (iterIncr [] "2025-03-15" .downloads 3)
        "2025-03-15" "2025-03-15").get .downloads = 3
    ∧ StoreLE [⟨"2025-03-14", 1, 2, 3⟩]
        (incrementCounter [⟨"2025-03-14", 1, 2, 3⟩] "2025-03-15" .errors)
    ∧ StoreLE [⟨"2025-03-14", 1, 2, 3⟩] [⟨"2025-03-14", 1, 2, 3⟩] := by
  refine ⟨claim_C1_monotonic_accumulation.1 [] "2025-03-15" .downloads 3 rfl,
    claim_C1_monotonic_accumulation.2.1 _ "2025-03-15" .errors,
    claim_C1_monotonic_accumulation.2.2.1 ⟨"s"⟩ ⟨"GET", "/nope", none⟩
      ⟨2025, 3, 15⟩ ⟨true, true, none, true, true, true, true⟩
      [⟨"2025-03-14", 1, 2, 3⟩] (.json 404 (.errorBody "not_found"))
      [⟨"2025-03-14", 1, 2, 3⟩] [] rfl⟩

/-! ## Claim C8 -/

/-- C8: `sumRange(a, b)` over a store containing no rows with
`a ≤ day ≤ b` returns all-zero counters (it is a total function, so absent
rows never cause an error); in particular when `b < a` no row can match, so
the result is all-zero for every store. -/
theorem claim_C8_empty_range_zero :
    (∀ (st : Store) (a b : String),
        (∀ r ∈ st, ¬(strLE a r.day = true ∧ strLE r.day b = true)) →
        queryTotals st a b = ⟨0, 0, 0⟩)
    ∧ (∀ (st : Store) (a b : String), strLE a b = false →
        queryTotals st a b = ⟨0, 0, 0⟩) := by
  refine ⟨queryTotals_of_no_match, fun st a b hab => ?_⟩
  apply queryTotals_of_no_match
  intro r _ ⟨h1, h2⟩
  rw [strLE_trans h1 h2] at hab
  exact Bool.true_eq_false ▸ hab

/-- Witness for C8: a store whose single row lies outside the queried range
sums to zero, and an inverted range (`a > b`) sums to zero over a non-empty
store. -/
theorem claim_C8_empty_range_zero_witness :
    queryTotals [⟨"2025-01-05", 7, 8, 9⟩] "2025-02-01" "2025-02-28" = ⟨0, 0, 0⟩
    ∧ queryTotals [⟨"2025-02-10", 7, 8, 9⟩] "2025-03-01" "2025-02-01"
        = ⟨0, 0, 0⟩ := by
  refine ⟨claim_C8_empty_range_zero.1 _ _ _ ?_,
    claim_C8_empty_range_zero.2 _ _ _ (by rfl)⟩
  decide

/-! ## Claim C10 -/

/-- C10: `increment(day, c)` modifies only counter column `c` of the row
keyed `day`: the rows of every other day are unchanged, the totals of the
other two counter columns for `day` are unchanged, and on the first
increment for a day the row is created with the other counters at 0. -/
theorem claim_C10_increment_frame :
    (∀ (st : Store) (d : String) (c : Col) (e : String), ¬ e = d →
        (incrementCounter st d c).filter (fun r => r.day == e)
          = st.filter (fun r => r.day == e))
    ∧ (∀ (st : Store) (d : String) (c c' : Col), ¬ c' = c →
        (dayTotals (incrementCounter st d c) d).get c'
          = (dayTotals st d).get c')
    ∧ (∀ (st : Store) (d : String) (c : Col), countDay st d = 0 →
        (incrementCounter st d c).filter (fun r => r.day == d)
          = [Row.bump ⟨d, 0, 0, 0⟩ c]) := by
  refine ⟨fun st d c e h => filter_day_incrementCounter_ne st d c e h,
    dayTotals_incrementCounter_ne, fun st d c h => ?_⟩
  rw [filter_day_incrementCounter_self, insertIfAbsent_of_absent st d h,
    List.filter_append]
  have hnil : st.filter (fun r => r.day == d) = [] := by
    unfold countDay at h
    exact List.length_eq_zero.mp h
  rw [hnil, List.nil_append]
  simp

/-- Witness for C10 at concrete inputs: incrementing `errors` for
`2025-03-15` leaves the `2025-03-14` row untouched, leaves the other two
columns' totals for `2025-03-15` unchanged, and creates the new row as
`(0, 0, 1)`. -/
theorem claim_C10_increment_frame_witness :
    (incrementCounter [⟨"2025-03-14", 1, 2, 3⟩] "2025-03-15" .errors).filter
        (fun r => r.day == "2025-03-14") = [⟨"2025-03-14", 1, 2, 3⟩]
    ∧ (dayTotals (incrementCounter [⟨"2025-03-14", 1, 2, 3⟩] "2025-03-15"
        .errors) "2025-03-15").get .downloads = 0
    ∧ (incrementCounter [⟨"2025-03-14", 1, 2, 3⟩] "2025-03-15" .errors).filter
        (fun r => r.day == "2025-03-15") = [⟨"2025-03-15", 0, 0, 1⟩] := by
  refine ⟨?_, ?_, ?_⟩
  · rw [claim_C10_increment_frame.1 [⟨"2025-03-14", 1, 2, 3⟩] "2025-03-15"
      .errors "2025-03-14" (by decide)]
    decide
  · rw [claim_C10_increment_frame.2.1 [⟨"2025-03-14", 1, 2, 3⟩] "2025-03-15"
      .errors .downloads (by decide)]
    decide
  · rw [claim_C10_increment_frame.2.2 [⟨"2025-03-14", 1, 2, 3⟩] "2025-03-15"
      .errors (by decide)]
    decide

/-! ## Calendar lemmas -/

theorem prevDay_valid (t : Date) (ht : t.Valid) : (prevDay t).Valid := by
  obtain ⟨y, m, d⟩ := t
  obtain ⟨h1, h2, h3, h4⟩ := ht
  dsimp only at h1 h2 h3 h4
  have hpos : 1 ≤ daysInMonth y (m - 1) := daysInMonth_pos y (m - 1)
  have h31 : daysInMonth (y - 1) 12 = 31 := by norm_num [daysInMonth]
  unfold prevDay Date.Valid
  dsimp only
  split_ifs <;> dsimp only <;> exact ⟨by omega, by omega, by omega, by omega⟩

theorem normDate_succ_sub (t : Date) (ht : t.Valid) (k : Nat) :
    normDate t.year t.month ((t.day : Int) - (k + 1))
      = normDate (prevDay t).year (prevDay t).month (((prevDay t).day : Int) - k) := by
  obtain ⟨h1, h2, h3, h4⟩ := ht
  unfold prevDay
  by_cases hd : 2 ≤ t.day
  · rw [if_pos hd]
    dsimp only
    congr 1
    omega
  · rw [if_neg hd]
    have hd1 : t.day = 1 := by omega
    by_cases hm : 2 ≤ t.month
    · rw [if_pos hm]
      dsimp only
      rw [normDate, if_neg (by omega), if_pos hm]
      congr 1
      omega
    · rw [if_neg hm]
      dsimp only
      rw [normDate, if_neg (by omega), if_neg hm]
      congr 1
      omega

theorem jsSubDays_eq_subCalDays (k : Nat) :
    ∀ t : Date, t.Valid → jsSubDays t k = subCalDays t k := by
  induction k with
  | zero =>
    intro t ht
    obtain ⟨h1, h2, h3, h4⟩ := ht
    unfold jsSubDays
    rw [normDate, if_pos (by omega)]
    have hday : ((t.day : Int) - ((0 : Nat) : Int)).toNat = t.day := by omega
    show (⟨t.year, t.month, ((t.day : Int) - ((0 : Nat) : Int)).toNat⟩ : Date)
        = subCalDays t 0
    rw [hday]
    rfl
  | succ k ih =>
    intro t ht
    unfold jsSubDays
    have hcast : (((k + 1 : Nat)) : Int) = (k : Int) + 1 := by push_cast; ring
    rw [hcast, normDate_succ_sub t ht k]
    show jsSubDays (prevDay t) k = subCalDays (prevDay t) k
    exact ih (prevDay t) (prevDay_valid t ht)

/-! ## Day-key order: the zero-padded key encodes calendar order -/

theorem digitChar_lt_iff {a b : Nat} (ha : a < 10) (hb : b < 10) :
    digitChar a < digitChar b ↔ a < b := by
  interval_cases a <;> interval_cases b <;> decide

theorem charsLE_digit_cons {a b : Nat} (ha : a < 10) (hb : b < 10)
    (as bs : List Char) :
    charsLE (digitChar a :: as) (digitChar b :: bs)
      = if a < b then true else if b < a then false else charsLE as bs := by
  show (if digitChar a < digitChar b then true
        else if digitChar b < digitChar a then false else charsLE as bs) = _
  by_cases h1 : a < b
  · rw [if_pos ((digitChar_lt_iff ha hb).mpr h1), if_pos h1]
  · rw [if_neg (fun hc => h1 ((digitChar_lt_iff ha hb).mp hc)), if_neg h1]
    by_cases h2 : b < a
    · rw [if_pos ((digitChar_lt_iff hb ha).mpr h2), if_pos h2]
    · rw [if_neg (fun hc => h2 ((digitChar_lt_iff hb ha).mp hc)), if_neg h2]

theorem charsLE_dash_cons (as bs : List Char) :
    charsLE ('-' :: as) ('-' :: bs) = charsLE as bs := by
  show (if '-' < '-' then true else if '-' < '-' then false else charsLE as bs) = _
  rw [if_neg (lt_irrefl _), if_neg (lt_irrefl _)]

theorem charsLE_pad2 {n k : Nat} (hn : n ≤ 99) (hk : k ≤ 99)
    (as bs : List Char) :
    charsLE (pad2 n ++ as) (pad2 k ++ bs)
      = if n < k then true else if k < n then false else charsLE as bs := by
  simp only [pad2, List.cons_append, List.nil_append]
  rw [charsLE_digit_cons (by omega) (by omega),
      charsLE_digit_cons (by omega) (by omega)]
  split_ifs <;> first | rfl | (exfalso; omega)

theorem charsLE_pad2_nil {n k : Nat} (hn : n ≤ 99) (hk : k ≤ 99) :
    charsLE (pad2 n) (pad2 k)
      = if n < k then true else if k < n then false else true := by
  have h := charsLE_pad2 hn hk [] []
  rw [List.append_nil, List.append_nil] at h
  rw [h]
  rfl

theorem charsLE_pad4 {n k : Nat} (hn : n ≤ 9999) (hk : k ≤ 9999)
    (as bs : List Char) :
    charsLE (pad4 n ++ as) (pad4 k ++ bs)
      = if n < k then true else if k < n then false else charsLE as bs := by
  simp only [pad4, List.append_assoc]
  rw [charsLE_pad2 (by omega) (by omega), charsLE_pad2 (by omega) (by omega)]
  split_ifs <;> first | rfl | (exfalso; omega)

theorem strLE_utcDay {u v : Date} (hu : u.Valid) (hv : v.Valid)
    (hu9 : u.year ≤ 9999) (hv9 : v.year ≤ 9999) :
    strLE (utcDay u) (utcDay v) = true ↔ dateLE u v := by
  obtain ⟨hu1, hu2, hu3, hu4⟩ := hu
  obtain ⟨hv1, hv2, hv3, hv4⟩ := hv
  have hud : u.day ≤ 31 := le_trans hu4 (daysInMonth_le _ _)
  have hvd : v.day ≤ 31 := le_trans hv4 (daysInMonth_le _ _)
  show charsLE (pad4 u.year ++ '-' :: (pad2 u.month ++ '-' :: pad2 u.day))
      (pad4 v.year ++ '-' :: (pad2 v.month ++ '-' :: pad2 v.day)) = true ↔ _
  rw [charsLE_pad4 hu9 hv9, charsLE_dash_cons,
      charsLE_pad2 (by omega) (by omega), charsLE_dash_cons,
      charsLE_pad2_nil (by omega) (by omega)]
  unfold dateLE
  split_ifs <;> simp <;> omega

theorem dateLE_trans {a b c : Date} (h1 : dateLE a b) (h2 : dateLE b c) :
    dateLE a c := by
  unfold dateLE at *
  omega

theorem dateLE_total (a b : Date) : dateLE a b ∨ dateLE b a := by
  unfold dateLE
  omega

theorem dateLE_year_le {a b : Date} (h : dateLE a b) : a.year ≤ b.year := by
  unfold dateLE at h
  omega

theorem dateLE_nextDay (t : Date) : dateLE t (nextDay t) := by
  unfold dateLE nextDay
  split_ifs <;> dsimp only <;> omega

theorem nextDay_valid (t : Date) (ht : t.Valid) : (nextDay t).Valid := by
  obtain ⟨h1, h2, h3, h4⟩ := ht
  have hp1 : 1 ≤ daysInMonth t.year (t.month + 1) := daysInMonth_pos _ _
  have hp2 : 1 ≤ daysInMonth (t.year + 1) 1 := daysInMonth_pos _ _
  unfold nextDay Date.Valid
  split_ifs <;> dsimp only <;> exact ⟨by omega, by omega, by omega, by omega⟩

theorem not_dateLE_iff {dm e : Date} (hdm : dm.Valid) (he : e.Valid) :
    ¬ dateLE e dm ↔ dateLE (nextDay dm) e := by
  obtain ⟨h1, h2, h3, h4⟩ := hdm
  obtain ⟨g1, g2, g3, g4⟩ := he
  unfold nextDay dateLE
  split_ifs with hlt hm12 <;> dsimp only
  · omega
  · by_cases hy : e.year = dm.year ∧ e.month = dm.month
    · obtain ⟨hy1, hy2⟩ := hy
      rw [hy1, hy2] at g4
      omega
    · omega
  · by_cases hy : e.year = dm.year ∧ e.month = dm.month
    · obtain ⟨hy1, hy2⟩ := hy
      rw [hy1, hy2] at g4
      omega
    · omega

/-! ## Claim C7 -/

/-- C7: the report windows are computed correctly. For every valid reference
date the code's `setUTCDate(getUTCDate() - k)` (building `yesterday` with
k = 1 and `sevenDaysAgo` with k = 6) equals subtracting k calendar days,
and `utcMonthStart` is the key of the first calendar day of the same UTC
month. In particular, for reference date 2025-03-15 the keys are
`2025-03-14`, `2025-03-09`, `2025-03-01`; for 2025-03-01, `monthStart` is
`2025-03-01` itself and `sevenDaysAgo` is `2025-02-23`. -/
theorem claim_C7_report_windows :
    (∀ (t : Date) (k : Nat), t.Valid → jsSubDays t k = subCalDays t k)
    ∧ (∀ t : Date, utcMonthStart t = utcDay ⟨t.year, t.month, 1⟩)
    ∧ utcDay (jsSubDays ⟨2025, 3, 15⟩ 1) = "2025-03-14"
    ∧ utcDay (jsSubDays ⟨2025, 3, 15⟩ 6) = "2025-03-09"
    ∧ utcMonthStart ⟨2025, 3, 15⟩ = "2025-03-01"
    ∧ utcMonthStart ⟨2025, 3, 1⟩ = "2025-03-01"
    ∧ utcDay (jsSubDays ⟨2025, 3, 1⟩ 6) = "2025-02-23" := by
  refine ⟨fun t k ht => jsSubDays_eq_subCalDays k t ht, fun t => rfl,
    ?_, ?_, by decide, by decide, ?_⟩
  · show utcDay (normDate 2025 3 ((15 : Nat) - (1 : Nat) : Int)) = _
    rw [normDate, if_pos (by decide)]
    decide
  · show utcDay (normDate 2025 3 ((15 : Nat) - (6 : Nat) : Int)) = _
    rw [normDate, if_pos (by decide)]
    decide
  · show utcDay (normDate 2025 3 ((1 : Nat) - (6 : Nat) : Int)) = _
    rw [normDate, if_neg (by decide), if_pos (by decide),
        normDate, if_pos (by decide)]
    decide

/-- Witness for C7: the general window equality applied at the concrete
reference date 2025-03-15 (a valid date) with k = 1. -/
theorem claim_C7_report_windows_witness :
    jsSubDays ⟨2025, 3, 15⟩ 1 = subCalDays ⟨2025, 3, 15⟩ 1
    ∧ (⟨2025, 3, 15⟩ : Date).Valid :=
  ⟨claim_C7_report_windows.1 ⟨2025, 3, 15⟩ 1 (by decide), by decide⟩

/-! ## Range splitting -/

theorem get_mk_row (r : Row) (c : Col) :
    (Totals.mk r.update_checks r.downloads r.errors).get c = r.get c := by
  cases c <;> rfl

theorem Totals.ext_of (a b : Totals) (h1 : a.update_checks = b.update_checks)
    (h2 : a.downloads = b.downloads) (h3 : a.errors = b.errors) : a = b := by
  cases a
  cases b
  cases h1
  cases h2
  cases h3
  rfl

theorem sumRows_filter_split_get (st : Store) (p q r : Row → Bool) (c : Col)
    (hpq : ∀ x ∈ st, p x = (q x || r x))
    (hex : ∀ x ∈ st, ¬(q x = true ∧ r x = true)) :
    (sumRows (st.filter q)).get c + (sumRows (st.filter r)).get c
      = (sumRows (st.filter p)).get c := by
  induction st with
  | nil => cases c <;> rfl
  | cons x xs ih =>
    have hp := hpq x (List.mem_cons_self x xs)
    have he := hex x (List.mem_cons_self x xs)
    have ih' := ih (fun y hy => hpq y (List.mem_cons_of_mem x hy))
      (fun y hy => hex y (List.mem_cons_of_mem x hy))
    simp only [List.filter_cons]
    by_cases hq : q x = true <;> by_cases hr : r x = true
    · exact absurd ⟨hq, hr⟩ he
    · have hpx : p x = true := by rw [hp, hq]; rfl
      rw [if_pos hq, if_neg hr, if_pos hpx]
      simp only [sumRows, Totals.get_add, get_mk_row]
      omega
    · have hq' : q x = false := Bool.eq_false_iff.mpr hq
      have hpx : p x = true := by rw [hp, hq', hr]; rfl
      rw [if_neg hq, if_pos hr, if_pos hpx]
      simp only [sumRows, Totals.get_add, get_mk_row]
      omega
    · have hq' : q x = false := Bool.eq_false_iff.mpr hq
      have hr' : r x = false := Bool.eq_false_iff.mpr hr
      have hpx : ¬ p x = true := by
        intro hh
        rw [hp, hq', hr'] at hh
        exact Bool.noConfusion hh
      rw [if_neg hq, if_neg hr, if_neg hpx]
      exact ih'

/-! ## Claim C9 -/

/-- C9: `sumRange` is additive: for every store whose rows carry valid day
keys, and valid day keys `a ≤ m < b`, the componentwise sum of
`sumRange(a, m)` and `sumRange(next day after m, b)` equals
`sumRange(a, b)` for each of the three counters. -/
theorem claim_C9_sumRange_additive
    (st : Store) (da dm db : Date)
    (hva : da.Valid) (hvm : dm.Valid) (hvb : db.Valid)
    (h9a : da.year ≤ 9999) (h9m : dm.year ≤ 9999) (h9b : db.year ≤ 9999)
    (hst : ∀ r ∈ st, ∃ e : Date, e.Valid ∧ e.year ≤ 9999 ∧ r.day = utcDay e)
    (ham : strLE (utcDay da) (utcDay dm) = true)
    (hmb : strLE (utcDay db) (utcDay dm) = false) :
    Totals.add (queryTotals st (utcDay da) (utcDay dm))
        (queryTotals st (utcDay (nextDay dm)) (utcDay db))
      = queryTotals st (utcDay da) (utcDay db) := by
  have hAM : dateLE da dm := (strLE_utcDay hva hvm h9a h9m).mp ham
  have hBM : ¬ dateLE db dm := fun hc => by
    rw [(strLE_utcDay hvb hvm h9b h9m).mpr hc] at hmb
    exact Bool.noConfusion hmb
  have hvn : (nextDay dm).Valid := nextDay_valid dm hvm
  have hNB : dateLE (nextDay dm) db := (not_dateLE_iff hvm hvb).mp hBM
  have h9n : (nextDay dm).year ≤ 9999 := le_trans (dateLE_year_le hNB) h9b
  have hMB : dateLE dm db := (dateLE_total db dm).resolve_left hBM
  have key : ∀ c : Col,
      (queryTotals st (utcDay da) (utcDay dm)).get c
        + (queryTotals st (utcDay (nextDay dm)) (utcDay db)).get c
      = (queryTotals st (utcDay da) (utcDay db)).get c := by
    intro c
    unfold queryTotals
    apply sumRows_filter_split_get st _ _ _ c
    · intro x hx
      obtain ⟨e, hve, he9, hxe⟩ := hst x hx
      rw [hxe, Bool.eq_iff_iff, Bool.and_eq_true, Bool.or_eq_true,
          Bool.and_eq_true, Bool.and_eq_true]
      rw [strLE_utcDay hva hve h9a he9, strLE_utcDay hve hvb he9 h9b,
          strLE_utcDay hve hvm he9 h9m, strLE_utcDay hvn hve h9n he9]
      have hsplit := not_dateLE_iff hvm hve
      constructor
      · rintro ⟨hA, hD⟩
        by_cases hB : dateLE e dm
        · exact Or.inl ⟨hA, hB⟩
        · exact Or.inr ⟨hsplit.mp hB, hD⟩
      · rintro (⟨hA, hB⟩ | ⟨hC, hD⟩)
        · exact ⟨hA, dateLE_trans hB hMB⟩
        · exact ⟨dateLE_trans hAM (dateLE_trans (dateLE_nextDay dm) hC), hD⟩
    · intro x hx
      obtain ⟨e, hve, he9, hxe⟩ := hst x hx
      rw [hxe, Bool.and_eq_true, Bool.and_eq_true]
      rintro ⟨⟨-, hB⟩, hC, -⟩
      rw [strLE_utcDay hve hvm he9 h9m] at hB
      rw [strLE_utcDay hvn hve h9n he9] at hC
      exact (not_dateLE_iff hvm hve).mpr hC hB
  exact Totals.ext_of _ _ (key .update_checks) (key .downloads) (key .errors)

/-- Witness for C9 at concrete inputs: store rows on 2025-03-05 and
2025-03-15, split of the range 2025-03-01 .. 2025-03-20 at 2025-03-10. -/
theorem claim_C9_sumRange_additive_witness :
    Totals.add
        (queryTotals [⟨"2025-03-05", 1, 2, 3⟩, ⟨"2025-03-15", 4, 5, 6⟩]
          (utcDay ⟨2025, 3, 1⟩) (utcDay ⟨2025, 3, 10⟩))
        (queryTotals [⟨"2025-03-05", 1, 2, 3⟩, ⟨"2025-03-15", 4, 5, 6⟩]
          (utcDay (nextDay ⟨2025, 3, 10⟩)) (utcDay ⟨2025, 3, 20⟩))
      = queryTotals [⟨"2025-03-05", 1, 2, 3⟩, ⟨"2025-03-15", 4, 5, 6⟩]
          (utcDay ⟨2025, 3, 1⟩) (utcDay ⟨2025, 3, 20⟩) := by
  apply claim_C9_sumRange_additive _ ⟨2025, 3, 1⟩ ⟨2025, 3, 10⟩ ⟨2025, 3, 20⟩
    (by decide) (by decide) (by decide) (by decide) (by decide) (by decide)
    ?_ (by decide) (by decide)
  intro r hr
  rcases List.mem_cons.mp hr with h | h
  · exact ⟨⟨2025, 3, 5⟩, by decide, by decide, by rw [h]; decide⟩
  · rcases List.mem_cons.mp h with h2 | h2
    · exact ⟨⟨2025, 3, 15⟩, by decide, by decide, by rw [h2]; decide⟩
    · exact absurd h2 (List.not_mem_nil r)

/-! ## Claim C2 -/

/-- C2: a `GET /update/check` request whose manifest fetch fails returns
status 503 with body `{ok:false,error:"manifest_unavailable"}` whatever the
counter outcomes were; and whenever the (best-effort) increment attempt
succeeded, the `update_checks` counter for the current UTC day has been
incremented exactly once, the increment attempt appearing in the trace
before the manifest fetch. -/
theorem claim_C2_update_check_manifest_failure
    (env : EnvCfg) (req : Request) (now : Date) (o : Oracle) (st : Store)
    (hm : req.method = "GET") (hp : req.path = "/update/check")
    (hmf : o.manifest = none) (hpk : countDay st (utcDay now) ≤ 1) :
    fetchHandler env req now o st
      = .ok (.json 503 (.errorBody "manifest_unavailable"),
             (countingPrologue st (utcDay now) .update_checks o).store,
             (countingPrologue st (utcDay now) .update_checks o).evs)
    ∧ (o.incOk = true →
        (countingPrologue st (utcDay now) .update_checks o).store
            = incrementCounter st (utcDay now) .update_checks
        ∧ (countingPrologue st (utcDay now) .update_checks o).evs
            = [Event.inc (utcDay now) .update_checks true,
               Event.manifestFetch false]
        ∧ (dayTotals
              ((countingPrologue st (utcDay now) .update_checks o).store)
              (utcDay now)).get .update_checks
            = (dayTotals st (utcDay now)).get .update_checks + 1) := by
  obtain ⟨method, path, tok⟩ := req
  dsimp only at hm hp
  subst hm hp
  constructor
  · unfold fetchHandler
    rw [hmf]
    rfl
  · intro hinc
    unfold countingPrologue
    rw [hinc, hmf, if_pos rfl]
    refine ⟨rfl, rfl, ?_⟩
    dsimp only
    rw [dayTotals_incrementCounter_get _ _ _ _ hpk, if_pos rfl]

/-- Witness for C2: concrete run on day 2025-03-15 from a store holding only
another day's row (the 503 response, and the counter incremented by one). -/
theorem claim_C2_update_check_manifest_failure_witness :
    fetchHandler ⟨"s"⟩ ⟨"GET", "/update/check", none⟩ ⟨2025, 3, 15⟩
        ⟨true, true, none, true, true, true, true⟩ [⟨"2025-03-14", 1, 2, 3⟩]
      = .ok (.json 503 (.errorBody "manifest_unavailable"),
             (countingPrologue [⟨"2025-03-14", 1, 2, 3⟩]
               (utcDay ⟨2025, 3, 15⟩) .update_checks
               ⟨true, true, none, true, true, true, true⟩).store,
             (countingPrologue [⟨"2025-03-14", 1, 2, 3⟩]
               (utcDay ⟨2025, 3, 15⟩) .update_checks
               ⟨true, true, none, true, true, true, true⟩).evs)
    ∧ (dayTotals
          ((countingPrologue [⟨"2025-03-14", 1, 2, 3⟩]
            (utcDay ⟨2025, 3, 15⟩) .update_checks
            ⟨true, true, none, true, true, true, true⟩).store)
          (utcDay ⟨2025, 3, 15⟩)).get .update_checks
        = (dayTotals [⟨"2025-03-14", 1, 2, 3⟩] (utcDay ⟨2025, 3, 15⟩)).get
            .update_checks + 1 :=
  ⟨(claim_C2_update_check_manifest_failure ⟨"s"⟩ ⟨"GET", "/update/check", none⟩
      ⟨2025, 3, 15⟩ ⟨true, true, none, true, true, true, true⟩
      [⟨"2025-03-14", 1, 2, 3⟩] rfl rfl rfl (by decide)).1,
   ((claim_C2_update_check_manifest_failure ⟨"s"⟩ ⟨"GET", "/update/check", none⟩
      ⟨2025, 3, 15⟩ ⟨true, true, none, true, true, true, true⟩
      [⟨"2025-03-14", 1, 2, 3⟩] rfl rfl rfl (by decide)).2 rfl).2.2⟩

/-! ## Claim C3 -/

/-- C3: `GET /download/latest` with a successfully fetched manifest: a
(nonempty) string URL at `latest.download.url` yields a 302 redirect to it;
if that path is nullish and `latest.url` holds a (nonempty) string URL the
302 redirect goes there; if no nonempty string sits at either path (e.g.
manifest `{"latest":{}}`) the response is 503 `manifest_unavailable`. -/
theorem claim_C3_download_redirect
    (env : EnvCfg) (req : Request) (now : Date) (o : Oracle) (st : Store)
    (m : Json)
    (hm : req.method = "GET") (hp : req.path = "/download/latest")
    (hmf : o.manifest = some m) :
    (∀ s, downloadUrlPath m = some (.str s) → ¬ s = "" →
      fetchHandler env req now o st
        = .ok (.redirect 302 s,
               (countingPrologue st (utcDay now) .downloads o).store,
               (countingPrologue st (utcDay now) .downloads o).evs))
    ∧ (∀ s, nullish (downloadUrlPath m) = true →
        latestUrlPath m = some (.str s) → ¬ s = "" →
      fetchHandler env req now o st
        = .ok (.redirect 302 s,
               (countingPrologue st (utcDay now) .downloads o).store,
               (countingPrologue st (utcDay now) .downloads o).evs))
    ∧ ((∀ s, ¬ s = "" → ¬ downloadUrlPath m = some (.str s)) →
       (∀ s, ¬ s = "" → ¬ latestUrlPath m = some (.str s)) →
      fetchHandler env req now o st
        = .ok (.json 503 (.errorBody "manifest_unavailable"),
               (countingPrologue st (utcDay now) .downloads o).store,
               (countingPrologue st (utcDay now) .downloads o).evs)) := by
  obtain ⟨method, path, tok⟩ := req
  dsimp only at hm hp
  subst hm hp
  have hbranch : fetchHandler env ⟨"GET", "/download/latest", tok⟩ now o st
      = (match latestUrlOf m with
         | some (.str s) =>
           if s == "" then
             .ok (.json 503 (.errorBody "manifest_unavailable"),
                  (countingPrologue st (utcDay now) .downloads o).store,
                  (countingPrologue st (utcDay now) .downloads o).evs)
           else
             .ok (.redirect 302 s,
                  (countingPrologue st (utcDay now) .downloads o).store,
                  (countingPrologue st (utcDay now) .downloads o).evs)
         | _ =>
           .ok (.json 503 (.errorBody "manifest_unavailable"),
                (countingPrologue st (utcDay now) .downloads o).store,
                (countingPrologue st (utcDay now) .downloads o).evs)) := by
    unfold fetchHandler
    rw [hmf]
    rfl
  refine ⟨fun s hd hs => ?_, fun s hnul hl hs => ?_, fun hd hl => ?_⟩
  · have hurl : latestUrlOf m = some (.str s) := by
      unfold latestUrlOf
      rw [hd]
      rfl
    rw [hbranch, hurl]
    simp only [beq_iff_eq, if_neg hs]
  · have hurl : latestUrlOf m = some (.str s) := by
      unfold latestUrlOf
      rw [if_pos hnul, hl]
    rw [hbranch, hurl]
    simp only [beq_iff_eq, if_neg hs]
  · rw [hbranch]
    rcases hcase : latestUrlOf m with - | j
    · rfl
    · cases j with
      | str s =>
        by_cases hse : s = ""
        · subst hse
          simp
        · exfalso
          unfold latestUrlOf at hcase
          by_cases hn : nullish (downloadUrlPath m) = true
          · rw [if_pos hn] at hcase
            exact hl s hse hcase
          · rw [if_neg hn] at hcase
            exact hd s hse hcase
      | null => rfl
      | bool b => rfl
      | num n => rfl
      | arr xs => rfl
      | obj kvs => rfl

/-- Witness for C3: the three manifests from the spec —
`{"latest":{"download":{"url":"https://x/y.zip"}}}` redirects to
`https://x/y.zip`, `{"latest":{"url":"https://x/z.zip"}}` redirects to
`https://x/z.zip`, and `{"latest":{}}` yields 503. -/
theorem claim_C3_download_redirect_witness :
    fetchHandler ⟨"s"⟩ ⟨"GET", "/download/latest", none⟩ ⟨2025, 3, 15⟩
        ⟨true, true,
         some (.obj [("latest", .obj [("download",
            .obj [("url", .str "https://x/y.zip")])])]),
         true, true, true, true⟩ []
      = .ok (.redirect 302 "https://x/y.zip",
             (countingPrologue [] (utcDay ⟨2025, 3, 15⟩) .downloads
               ⟨true, true,
                some (.obj [("latest", .obj [("download",
                   .obj [("url", .str "https://x/y.zip")])])]),
                true, true, true, true⟩).store,
             (countingPrologue [] (utcDay ⟨2025, 3, 15⟩) .downloads
               ⟨true, true,
                some (.obj [("latest", .obj [("download",
                   .obj [("url", .str "https://x/y.zip")])])]),
                true, true, true, true⟩).evs)
    ∧ fetchHandler ⟨"s"⟩ ⟨"GET", "/download/latest", none⟩ ⟨2025, 3, 15⟩
        ⟨true, true, some (.obj [("latest", .obj [("url", .str "https://x/z.zip")])]),
         true, true, true, true⟩ []
      = .ok (.redirect 302 "https://x/z.zip",
             (countingPrologue [] (utcDay ⟨2025, 3, 15⟩) .downloads
               ⟨true, true,
                some (.obj [("latest", .obj [("url", .str "https://x/z.zip")])]),
                true, true, true, true⟩).store,
             (countingPrologue [] (utcDay ⟨2025, 3, 15⟩) .downloads
               ⟨true, true,
                some (.obj [("latest", .obj [("url", .str "https://x/z.zip")])]),
                true, true, true, true⟩).evs)
    ∧ fetchHandler ⟨"s"⟩ ⟨"GET", "/download/latest", none⟩ ⟨2025, 3, 15⟩
        ⟨true, true, some (.obj [("latest", .obj [])]), true, true, true, true⟩ []
      = .ok (.json 503 (.errorBody "manifest_unavailable"),
             (countingPrologue [] (utcDay ⟨2025, 3, 15⟩) .downloads
               ⟨true, true, some (.obj [("latest", .obj [])]),
                true, true, true, true⟩).store,
             (countingPrologue [] (utcDay ⟨2025, 3, 15⟩) .downloads
               ⟨true, true, some (.obj [("latest", .obj [])]),
                true, true, true, true⟩).evs) := by
  refine ⟨(claim_C3_download_redirect ⟨"s"⟩ ⟨"GET", "/download/latest", none⟩
      ⟨2025, 3, 15⟩
      ⟨true, true, some (.obj [("latest", .obj [("download",
         .obj [("url", .str "https://x/y.zip")])])]), true, true, true, true⟩ []
      (.obj [("latest", .obj [("download", .obj [("url", .str "https://x/y.zip")])])])
      rfl rfl rfl).1 "https://x/y.zip" rfl (by decide),
    (claim_C3_download_redirect ⟨"s"⟩ ⟨"GET", "/download/latest", none⟩
      ⟨2025, 3, 15⟩
      ⟨true, true, some (.obj [("latest", .obj [("url", .str "https://x/z.zip")])]),
       true, true, true, true⟩ []
      (.obj [("latest", .obj [("url", .str "https://x/z.zip")])])
      rfl rfl rfl).2.1 "https://x/z.zip" rfl rfl (by decide),
    (claim_C3_download_redirect ⟨"s"⟩ ⟨"GET", "/download/latest", none⟩
      ⟨2025, 3, 15⟩
      ⟨true, true, some (.obj [("latest", .obj [])]), true, true, true, true⟩ []
      (.obj [("latest", .obj [])]) rfl rfl rfl).2.2 ?_ ?_⟩
  · intro s _ hcontra
    simp [downloadUrlPath, optChain, getProp, lookupKey] at hcontra
  · intro s _ hcontra
    simp [latestUrlPath, optChain, getProp, lookupKey] at hcontra

/-! ## Claim C5 -/

/-- C5: `GET /report` with a missing or wrong `X-Admin-Token`, or with an
empty configured secret, returns 401 `{ok:false,error:"unauthorized"}` with
the store unchanged and no store reads or writes issued (empty trace). -/
theorem claim_C5_report_unauthorized
    (env : EnvCfg) (req : Request) (now : Date) (o : Oracle) (st : Store)
    (hm : req.method = "GET") (hp : req.path = "/report")
    (hauth : env.ADMIN_TOKEN = "" ∨ ¬ req.adminToken = some env.ADMIN_TOKEN) :
    fetchHandler env req now o st
      = .ok (.json 401 (.errorBody "unauthorized"), st, []) := by
  obtain ⟨method, path, tok⟩ := req
  dsimp only at hm hp hauth
  subst hm hp
  have hcond : (env.ADMIN_TOKEN == "" || tok != some env.ADMIN_TOKEN) = true := by
    rcases hauth with h | h
    · rw [Bool.or_eq_true, beq_iff_eq]
      exact Or.inl h
    · rw [Bool.or_eq_true, bne_iff_ne]
      exact Or.inr h
  unfold fetchHandler
  simp only [hcond]
  rfl

/-- Witness for C5: wrong token against secret `"s"` yields the 401 response
with untouched store and empty trace. -/
theorem claim_C5_report_unauthorized_witness :
    fetchHandler ⟨"s"⟩ ⟨"GET", "/report", some "wrong"⟩ ⟨2025, 3, 15⟩
        ⟨true, true, none, true, true, true, true⟩ [⟨"2025-03-14", 1, 2, 3⟩]
      = .ok (.json 401 (.errorBody "unauthorized"), [⟨"2025-03-14", 1, 2, 3⟩], []) :=
  claim_C5_report_unauthorized ⟨"s"⟩ ⟨"GET", "/report", some "wrong"⟩
    ⟨2025, 3, 15⟩ ⟨true, true, none, true, true, true, true⟩
    [⟨"2025-03-14", 1, 2, 3⟩] rfl rfl (Or.inr (by decide))

/-! ## Claim C6 -/

/-- C6: a scheduled run whose aggregation queries fail performs exactly one
`errors`-counter increment attempt for the current UTC day, makes no
webhook call and returns normally; a run whose aggregation succeeds but
whose webhook send fails performs one best-effort `errors` increment
attempt for today and still returns normally. -/
theorem claim_C6_scheduled_failures (now : Date) (o : SchedOracle) (st : Store) :
    (¬ (o.q1Ok && o.q2Ok && o.q3Ok) = true →
      ∃ st' evs, scheduledJob now o st = .ok (st', evs)
        ∧ evs.filter Event.isInc = [Event.inc (utcDay now) .errors o.aggErrIncOk]
        ∧ evs.filter Event.isWebhook = [])
    ∧ ((o.q1Ok && o.q2Ok && o.q3Ok) = true → o.webhookOk = false →
      ∃ evs, scheduledJob now o st
          = .ok (if o.hookErrIncOk then
                   incrementCounter st (utcDay now) .errors
                 else st, evs)
        ∧ evs.filter Event.isInc = [Event.inc (utcDay now) .errors o.hookErrIncOk]
        ∧ evs.filter Event.isWebhook = [Event.webhook false]) := by
  constructor
  · intro hq
    refine ⟨if o.aggErrIncOk then incrementCounter st (utcDay now) .errors else st,
      [Event.query (utcDay (jsSubDays now 1)) (utcDay (jsSubDays now 1)) o.q1Ok,
       Event.query (utcDay (jsSubDays now 6)) (utcDay now) o.q2Ok,
       Event.query (utcMonthStart now) (utcDay now) o.q3Ok,
       Event.inc (utcDay now) .errors o.aggErrIncOk], ?_, ?_, ?_⟩
    · unfold scheduledJob
      rw [if_neg hq]
      rfl
    · simp [List.filter, Event.isInc]
    · simp [List.filter, Event.isWebhook]
  · intro hq hw
    refine ⟨[Event.query (utcDay (jsSubDays now 1)) (utcDay (jsSubDays now 1)) o.q1Ok,
       Event.query (utcDay (jsSubDays now 6)) (utcDay now) o.q2Ok,
       Event.query (utcMonthStart now) (utcDay now) o.q3Ok,
       Event.webhook false,
       Event.inc (utcDay now) .errors o.hookErrIncOk], ?_, ?_, ?_⟩
    · unfold scheduledJob
      rw [if_pos hq, hw]
      rfl
    · simp [List.filter, Event.isInc]
    · simp [List.filter, Event.isWebhook]

/-- Witness for C6: a run with all three queries failing, and a run with
queries succeeding but the webhook failing, both on 2025-03-15. -/
theorem claim_C6_scheduled_failures_witness :
    (∃ st' evs, scheduledJob ⟨2025, 3, 15⟩
          ⟨false, false, false, true, true, true⟩ [] = .ok (st', evs)
        ∧ evs.filter Event.isInc
            = [Event.inc (utcDay ⟨2025, 3, 15⟩) .errors true]
        ∧ evs.filter Event.isWebhook = [])
    ∧ (∃ evs, scheduledJob ⟨2025, 3, 15⟩
          ⟨true, true, true, true, false, true⟩ []
          = .ok (if true then
                   incrementCounter [] (utcDay ⟨2025, 3, 15⟩) .errors
                 else [], evs)
        ∧ evs.filter Event.isInc
            = [Event.inc (utcDay ⟨2025, 3, 15⟩) .errors true]
        ∧ evs.filter Event.isWebhook = [Event.webhook false]) :=
  ⟨(claim_C6_scheduled_failures ⟨2025, 3, 15⟩
      ⟨false, false, false, true, true, true⟩ []).1 (by decide),
   (claim_C6_scheduled_failures ⟨2025, 3, 15⟩
      ⟨true, true, true, true, false, true⟩ []).2 rfl rfl⟩

/-! ## Claim C4 -/

/-- C4 as stated is false on the code: the `/report` branch has no
`try/catch` around its four range-sum queries, so an authorized
`GET /report` whose first query raises `StorageError` propagates the
exception to the runtime instead of returning a response. Concrete
counterexample run. -/
theorem claim_C4_counterexample :
    fetchHandler ⟨"secret"⟩ ⟨"GET", "/report", some "secret"⟩ ⟨2025, 3, 15⟩
      ⟨true, true, none, false, true, true, true⟩ [] = .error .storage := by
  rfl

/-- C4 amended: no error is fatal on any path other than an authorized
`GET /report` with a failing range-sum query — every request outside that
case returns an HTTP response, and the scheduled job always completes
without raising. -/
theorem claim_C4_amended_no_fatal_errors :
    (∀ (env : EnvCfg) (req : Request) (now : Date) (o : Oracle) (st : Store),
        (req.method = "GET" → req.path = "/report" →
          ¬(env.ADMIN_TOKEN = "" ∨ ¬ req.adminToken = some env.ADMIN_TOKEN) →
          (o.q1Ok && o.q2Ok && o.q3Ok && o.q4Ok) = true) →
        ∃ out, fetchHandler env req now o st = .ok out)
    ∧ (∀ (now : Date) (o : SchedOracle) (st : Store),
        ∃ out, scheduledJob now o st = .ok out) := by
  constructor
  · intro env req now o st hpre
    unfold fetchHandler
    repeat' split
    all_goals try exact ⟨_, rfl⟩
    rename_i hroute hauth hq
    exfalso
    rw [Bool.and_eq_true, beq_iff_eq, beq_iff_eq] at hroute
    apply hq
    apply hpre hroute.1 hroute.2
    intro hcontra
    apply hauth
    rw [Bool.or_eq_true, beq_iff_eq, bne_iff_ne]
    exact hcontra
  · intro now o st
    unfold scheduledJob
    repeat' split
    all_goals exact ⟨_, rfl⟩

/-- Witness for the amended C4: a request outside the failing case (a 404
path) returns a response even with every query marked as failing, and a
concrete scheduled run completes. -/
theorem claim_C4_amended_no_fatal_errors_witness :
    (∃ out, fetchHandler ⟨"s"⟩ ⟨"GET", "/nope", none⟩ ⟨2025, 3, 15⟩
        ⟨false, false, none, false, false, false, false⟩ [] = .ok out)
    ∧ (∃ out, scheduledJob ⟨2025, 3, 15⟩
        ⟨false, false, false, false, false, false⟩ [] = .ok out) :=
  ⟨claim_C4_amended_no_fatal_errors.1 ⟨"s"⟩ ⟨"GET", "/nope", none⟩
      ⟨2025, 3, 15⟩ ⟨false, false, none, false, false, false, false⟩ []
      (fun _ hp => absurd hp (by decide)),
   claim_C4_amended_no_fatal_errors.2 ⟨2025, 3, 15⟩
      ⟨false, false, false, false, false, false⟩ []⟩

end Lighthouse
